import Mathlib

/-! ## Definitions: shallow embedding of the pipeline -/

/-- A parsed JSON value as produced by Python's `json.load`.  Numbers are
modelled as rationals (JSON decimal literals are exactly representable);
objects are association lists, assumed key-distinct as `json.load` returns. -/
inductive JVal where
  | jnull
  | jbool (b : Bool)
  | jnum (q : ℚ)
  | jstr (s : String)
  | jarr (xs : List JVal)
  | jobj (fs : List (String × JVal))

/-- Python truthiness (`bool(v)`) on a JSON-derived value: `None`, `False`,
`0`, `""`, `[]` and `{}` are falsy, everything else truthy. -/
def pyTruthy : JVal → Bool
  | .jnull => false
  | .jbool b => b
  | .jnum q => q != 0
  | .jstr s => !s.isEmpty
  | .jarr xs => !xs.isEmpty
  | .jobj fs => !fs.isEmpty

/-- Whether the value is Python `None` (JSON `null`). -/
def JVal.isNull : JVal → Bool
  | .jnull => true
  | _ => false

/-- Whether the value is a JSON number. -/
def JVal.isNum : JVal → Bool
  | .jnum _ => true
  | _ => false

/-- Numeric value of a digit string, e.g. `digitsToNat ['4','2'] = 42`. -/
def digitsToNat (cs : List Char) : ℕ :=
  cs.foldl (fun n c => 10 * n + (c.toNat - 48)) 0

/-- Parse an unsigned decimal literal (`"12"`, `"12."`, `".5"`, `"1.25"`)
the way Python `float` accepts it; anything else yields `none`.
Exponent and `inf`/`nan` spellings of Python `float` are not modelled —
no claim depends on them. -/
def parseUnsigned (cs : List Char) : Option ℚ :=
  let ip := cs.takeWhile Char.isDigit
  let rest := cs.dropWhile Char.isDigit
  match rest with
  | [] => if ip.isEmpty then none else some ((digitsToNat ip : ℚ))
  | '.' :: fp =>
      if fp.all Char.isDigit && !(ip.isEmpty && fp.isEmpty) then
        some ((digitsToNat ip : ℚ) + (digitsToNat fp : ℚ) / (10 : ℚ) ^ fp.length)
      else none
  | _ => none

/-- Python `float(s)` on a string: surrounding spaces stripped, optional
sign, decimal literal. -/
def pyFloatOfStr (s : String) : Option ℚ :=
  let cs := s.toList.dropWhile (· = ' ')
  let cs := (cs.reverse.dropWhile (· = ' ')).reverse
  match cs with
  | '-' :: rest => (parseUnsigned rest).map (fun q => -q)
  | '+' :: rest => parseUnsigned rest
  | _ => parseUnsigned cs

/-- Python `float(v)` on a JSON-derived value: numbers and booleans coerce,
numeric strings parse, everything else raises (modelled as `none`). -/
def pyFloat? : JVal → Option ℚ
  | .jnum q => some q
  | .jbool b => some (if b then 1 else 0)
  | .jstr s => pyFloatOfStr s
  | _ => none

/-- Python `str(v)` for the values the loader stores.  Strings are returned
as-is, `None`/booleans use their Python spellings; the rendering of numbers
and containers is canonical rather than byte-exact (no claim inspects it). -/
def pyStr : JVal → String
  | .jstr s => s
  | .jnull => "None"
  | .jbool b => if b then "True" else "False"
  | .jnum q => toString q
  | .jarr _ => "<list>"
  | .jobj _ => "<dict>"

/-- Python `item.get(k)` (default `None`) on a parsed JSON object: a missing
key and an explicit JSON `null` both come back as `None`, i.e. `jnull`. -/
def getN (fs : List (String × JVal)) (k : String) : JVal :=
  (fs.lookup k).getD .jnull

/-- Python `item.get(k, d)`: the default is used only when the key is
missing; an explicit JSON `null` is returned as `None` itself. -/
def getDef (fs : List (String × JVal)) (k : String) (d : JVal) : JVal :=
  (fs.lookup k).getD d

/-- A persisted row of the `Alert` SQLModel table of `src/main.py` (the
autoincrement `id` column is immaterial to the claims and omitted).  `lat`
and `lng` keep the raw value handed to the `Alert` constructor: on the
coercion path this is a coerced number, on the pass-through path it is
whatever the JSON record contained. -/
structure DbAlert where
  source : String
  severity : String
  title : String
  message : String
  time : ℕ
  lat : Option JVal
  lng : Option JVal

/-- Coordinate pass-through used when at most one of `lat`/`lng` is
present: Python `None` stays `None`, any other value is stored raw. -/
def optVal (v : JVal) : Option JVal :=
  if v.isNull then none else some v

/-- The three skip paths of the per-record loop of
`load_alerts_from_json`; the stored reason string is the tag rendered with
the record's index by `SkipReason.render`, matching the source f-strings. -/
inductive SkipReason where
  | missingTitleMessage
  | invalidLatLng
  | exception
deriving DecidableEq

/-- The `f"idx {idx}: ..."` reason string recorded in `skipped_details`.
On the exception path Python appends the exception text, which is not
modelled further. -/
def SkipReason.render (idx : ℕ) : SkipReason → String
  | .missingTitleMessage => s!"idx {idx}: missing title/message"
  | .invalidLatLng => s!"idx {idx}: invalid lat/lng"
  | .exception => s!"idx {idx}: exception"

/-- Per-record body of the loop of `load_alerts_from_json`
(`src/main.py:110-149`): validation, optional coordinate coercion, and
construction of the row; `.inr` carries the skip reason.  A non-object
list element makes `item.get` raise `AttributeError`, absorbed by the
inner `except`. -/
def processItem (now : ℕ) (item : JVal) : DbAlert ⊕ SkipReason :=
  match item with
  | .jobj fs =>
      let title := getN fs "title"
      let message := getN fs "message"
      let severity := getDef fs "severity" (.jstr "info")
      let source := getDef fs "source" (.jstr "unknown")
      let lat := getN fs "lat"
      let lng := getN fs "lng"
      if !pyTruthy title || !pyTruthy message then
        .inr .missingTitleMessage
      else if !lat.isNull && !lng.isNull then
        match pyFloat? lat, pyFloat? lng with
        | some la, some ln =>
            .inl ⟨pyStr source, pyStr severity, pyStr title, pyStr message,
                  now, some (.jnum la), some (.jnum ln)⟩
        | _, _ => .inr .invalidLatLng
      else
        .inl ⟨pyStr source, pyStr severity, pyStr title, pyStr message,
              now, optVal lat, optVal lng⟩
  | _ => .inr .exception

/-- The `for idx, item in enumerate(data)` loop: inserted rows in order,
inserted count, skipped count, and skip reasons (rendered with their
record index) in order. -/
def processBatch (now idx : ℕ) : List JVal → List DbAlert × ℕ × ℕ × List String
  | [] => ([], 0, 0, [])
  | it :: rest =>
      match processItem now it with
      | .inl a =>
          let (as, ins, skp, det) := processBatch now (idx + 1) rest
          (a :: as, ins + 1, skp, det)
      | .inr r =>
          let (as, ins, skp, det) := processBatch now (idx + 1) rest
          (as, ins, skp + 1, r.render idx :: det)

/-- The dictionary `load_alerts_from_json` returns: either the
`inserted`/`skipped`/`skipped_details` summary or the `{"error": ...}`
shape of the outer `except` branch. -/
inductive LoadResult where
  | ok (inserted skipped : ℕ) (skipped_details : List String)
  | error (msg : String)

/-- Store contents after the call, paired with the returned value. -/
structure LoadOutcome where
  store : List DbAlert
  result : LoadResult

/-- `load_alerts_from_json` of `src/main.py:86-155`.  `file` is the parsed
exchange file (`none` = the file does not exist; the missing-file error
message omits the `os.getcwd()` suffix).  On the error paths the function
raises before the `delete` statement runs, so the prior store is returned
untouched; on the list path the table is cleared and exactly the accepted
rows are inserted and committed. -/
def load_alerts_from_json (now : ℕ) (file_path : String) (file : Option JVal)
    (prior : List DbAlert) : LoadOutcome :=
  match file with
  | none => ⟨prior, .error (file_path ++ " not found")⟩
  | some data =>
      match data with
      | .jarr items =>
          let (alerts, ins, skp, det) := processBatch now 0 items
          ⟨alerts, .ok ins skp det⟩
      | _ => ⟨prior, .error "alerts.json must contain a JSON array (list) of alert objects."⟩

/-- A row respects the coordinate shape the loader can produce: whenever
both `lat` and `lng` are present, both are numbers (the coercion branch is
the only branch that stores both). -/
def coordWF (a : DbAlert) : Bool :=
  match a.lat, a.lng with
  | some x, some y => x.isNum && y.isNum
  | _, _ => true

/-- Every row of the store satisfies `coordWF`. -/
def storeWF (store : List DbAlert) : Bool :=
  store.all coordWF

/-- Python `str.lower()` on the ASCII texts the scraper handles, character
by character (`Char.toLower` maps only ASCII capitals; all keyword tables
are ASCII). -/
def lowerStr (cs : List Char) : List Char :=
  cs.map Char.toLower

/-- Python substring containment `needle in hay`, scanning positions left
to right. -/
def strContains (hay needle : List Char) : Bool :=
  match hay with
  | [] => needle.isEmpty
  | c :: t => needle.isPrefixOf (c :: t) || strContains t needle

/-- The spec-level notion the claims use: `needle` occurs contiguously
somewhere inside `hay`. -/
def OccursIn (needle hay : List Char) : Prop :=
  ∃ pre post, hay = pre ++ needle ++ post

/-- The `'emergency'` keyword table of `INCOISScraper.__init__`
(`src/incois_scraper.py:83-88`), in source order. -/
def emergency_keywords : List String :=
  ["tsunami", "cyclone", "severe cyclone", "very severe cyclone",
   "super cyclone", "red alert", "emergency", "evacuation",
   "extreme", "dangerous", "life threatening", "catastrophic",
   "super cyclonic storm", "extremely severe"]

/-- The `'warning'` keyword table (`src/incois_scraper.py:89-94`). -/
def warning_keywords : List String :=
  ["warning", "heavy rain", "flood", "high tide", "storm surge",
   "orange alert", "yellow alert", "caution", "advisory",
   "rough sea", "high waves", "strong wind", "depression",
   "cyclonic storm", "deep depression"]

/-- `INCOISScraper._determine_severity` (`src/incois_scraper.py:121-135`):
lowercase the text, return `'emergency'` on the first emergency keyword
contained in it, else `'warning'` on the first warning keyword, else
`'info'`.  The early-`return` loops are `List.any` since the returned
value does not depend on which keyword matched. -/
def determine_severity (text : String) : String :=
  let text_lower := lowerStr text.toList
  if emergency_keywords.any (fun k => strContains text_lower (lowerStr k.toList)) then
    "emergency"
  else if warning_keywords.any (fun k => strContains text_lower (lowerStr k.toList)) then
    "warning"
  else
    "info"

/-- `INCOISScraper._geocode_location` (`src/incois_scraper.py:150-172`).
`lookup` stands for the effectful `self.geocoder.geocode` call on the
`"<location>, India"` query, already folded with the surrounding
`try`/`except` (failure, timeout and no-match all give `none`).  The
second component records whether the external geocoder was invoked. -/
def geocode_location (lookup : String → Option (ℚ × ℚ)) (location : String) :
    Option (ℚ × ℚ) × Bool :=
  let location_lower := lowerStr location.toList
  if strContains location_lower ("bay of bengal".toList) then
    (some (15, 87), false)
  else if strContains location_lower ("arabian sea".toList) then
    (some (15, 68), false)
  else if strContains location_lower ("indian ocean".toList) then
    (some (10, 75), false)
  else
    (lookup (location ++ ", India"), true)

/-- The `Alert` dataclass of `src/incois_scraper.py:38-47` (in-flight
scraper alerts, distinct from the persisted `DbAlert` rows). -/
structure ScrapedAlert where
  title : String
  message : String
  severity : String
  source : String
  lat : Option ℚ
  lng : Option ℚ
  time : String
deriving Inhabited, DecidableEq

/-- The dedup key `alert.message[:100].lower()`
(`src/incois_scraper.py:404`): Python slicing counts code points, so it is
`toList.take 100`. -/
def messageKey (message : String) : List Char :=
  lowerStr (message.toList.take 100)

/-- The duplicate-removal loop of `fetch_incois_alerts`
(`src/incois_scraper.py:399-411`): `seen` is the `seen_messages` set (as
the list of keys already seen), and the result is
`(unique_alerts, alerts_processed, alerts_skipped)` with both counters
starting from 0 as `__init__` sets them. -/
def dedupLoop (seen : List (List Char)) : List ScrapedAlert → List ScrapedAlert × ℕ × ℕ
  | [] => ([], 0, 0)
  | a :: rest =>
      let key := messageKey a.message
      if key ∈ seen then
        let (u, p, s) := dedupLoop seen rest
        (u, p, s + 1)
      else
        let (u, p, s) := dedupLoop (key :: seen) rest
        (a :: u, p + 1, s)

/-- `INCOISScraper._generate_sample_alerts` (`src/incois_scraper.py:329-363`);
`now` is the `datetime.now(timezone.utc).isoformat()` stamp. -/
def sample_alerts (now : String) : List ScrapedAlert :=
  [⟨"🚨 High Wave Alert - Bay of Bengal",
    "Sea conditions are rough to very rough with wave heights of 3-4 meters expected along Andhra Pradesh and Odisha coasts. Fishermen are advised not to venture into the sea.",
    "warning", "INCOIS", some (177/10), some (833/10), now⟩,
   ⟨"⚠️ Ocean State Forecast",
    "Moderate sea conditions expected along Tamil Nadu coast with wave heights of 1.5-2.5 meters. Light to moderate rainfall predicted.",
    "info", "INCOIS", some (130827/10000), some (802707/10000), now⟩,
   ⟨"🚨 Cyclone Warning - Arabian Sea",
    "A deep depression in Arabian Sea is likely to intensify into a cyclonic storm. Coastal areas of Gujarat and Maharashtra advised to take precautionary measures.",
    "emergency", "INCOIS", some 20, some 70, now⟩]

/-- The web-scraping half of the source loop of `fetch_incois_alerts`
(`src/incois_scraper.py:381-392`): each page's alerts are appended to the
accumulator and the loop breaks once at least 5 alerts have accumulated
in total (RSS alerts included, since `acc` starts from them). -/
def pagesLoop (acc : List ScrapedAlert) : List (List ScrapedAlert) → List ScrapedAlert
  | [] => acc
  | pg :: rest =>
      let acc' := acc ++ pg
      if 5 ≤ acc'.length then acc' else pagesLoop acc' rest

/-- `INCOISScraper.fetch_incois_alerts` (`src/incois_scraper.py:365-419`).
`feeds` and `pages` are the per-URL results of `_try_rss_feed` and
`_scrape_webpage` (both absorb their own exceptions and return a list, so
a failed source is just `[]`).  Returns the produced alert records (the
final `asdict` conversion is identity here) together with the
`alerts_processed` and `alerts_skipped` counters. -/
def fetch_incois_alerts (now : String)
    (feeds pages : List (List ScrapedAlert)) : List ScrapedAlert × ℕ × ℕ :=
  let all_alerts := pagesLoop feeds.flatten pages
  let all_alerts := if all_alerts.isEmpty then sample_alerts now else all_alerts
  let (unique_alerts, processed, skipped) := dedupLoop [] all_alerts
  if unique_alerts.isEmpty then
    (sample_alerts now, (sample_alerts now).length, skipped)
  else
    (unique_alerts, processed, skipped)

/-- Python `math.radians(x)`: degrees to radians. -/
noncomputable def radians (x : ℝ) : ℝ :=
  x * Real.pi / 180

/-- Python `math.atan2(y, x)` (quadrant-aware arctangent; the signed-zero
distinctions of IEEE floats collapse to the plain zero here). -/
noncomputable def atan2 (y x : ℝ) : ℝ :=
  if 0 < x then Real.arctan (y / x)
  else if x < 0 ∧ 0 ≤ y then Real.arctan (y / x) + Real.pi
  else if x < 0 ∧ y < 0 then Real.arctan (y / x) - Real.pi
  else if 0 < y then Real.pi / 2
  else if y < 0 then -(Real.pi / 2)
  else 0

/-- The intermediate `a` of `haversine_km` (`src/main.py:72`). -/
noncomputable def hav_a (lat1 lon1 lat2 lon2 : ℝ) : ℝ :=
  Real.sin (radians (lat2 - lat1) / 2) ^ 2 +
    Real.cos (radians lat1) * Real.cos (radians lat2) *
      Real.sin (radians (lon2 - lon1) / 2) ^ 2

/-- `haversine_km` of `src/main.py:68-74`: `R * c` with `R = 6371.0` and
`c = 2 * atan2(sqrt(a), sqrt(1 - a))`. -/
noncomputable def haversine_km (lat1 lon1 lat2 lon2 : ℝ) : ℝ :=
  6371.0 * (2 * atan2 (Real.sqrt (hav_a lat1 lon1 lat2 lon2))
    (Real.sqrt (1 - hav_a lat1 lon1 lat2 lon2)))

/-- Round-half-to-even on a real number, the tie rule of Python `round`. -/
noncomputable def roundHalfEven (x : ℝ) : ℤ :=
  if Int.fract x = 1 / 2 then (if ⌊x⌋ % 2 = 0 then ⌊x⌋ else ⌊x⌋ + 1)
  else round x

/-- Python `round(x, 2)` modelled over the reals. -/
noncomputable def pyRound2 (x : ℝ) : ℝ :=
  (roundHalfEven (x * 100) : ℝ) / 100

/-- The stored values `math.radians` accepts without raising: numbers, and
booleans (Python `bool` is an `int`).  A stored string raises `TypeError`,
which `alerts_nearby` absorbs by skipping the row. -/
def numericVal? : JVal → Option ℚ
  | .jnum q => some q
  | .jbool b => some (if b then 1 else 0)
  | _ => none

/-- Distance of the query point to one stored row
(`src/main.py:196-201`): `none` when the row misses a coordinate or the
`haversine_km` call raises. -/
noncomputable def alertDist (qlat qlng : ℝ) (a : DbAlert) : Option ℝ :=
  match a.lat, a.lng with
  | some lv, some gv =>
      match numericVal? lv, numericVal? gv with
      | some la, some lg => some (haversine_km qlat qlng (la : ℝ) (lg : ℝ))
      | _, _ => none
  | _, _ => none

/-- The filtering loop of `alerts_nearby` (`src/main.py:194-206`): keep the
rows within `radius_km`, each decorated with the distance rounded to two
decimals (the row dict with its added `distance_km` entry is the pair). -/
noncomputable def alerts_nearby_filter (alerts : List DbAlert)
    (qlat qlng radius_km : ℝ) : List (DbAlert × ℝ) :=
  alerts.filterMap fun a =>
    match alertDist qlat qlng a with
    | some dist => if dist ≤ radius_km then some (a, pyRound2 dist) else none
    | none => none

/-- The `/alerts-nearby` route (`src/main.py:185-209`): re-sync the store
from the exchange file (its return value is ignored; on its error paths
the prior store stays), then filter all persisted rows. -/
noncomputable def alerts_nearby (now : ℕ) (file_path : String)
    (file : Option JVal) (prior : List DbAlert)
    (qlat qlng radius_km : ℝ) : List (DbAlert × ℝ) :=
  alerts_nearby_filter (load_alerts_from_json now file_path file prior).store
    qlat qlng radius_km

/-- Inserted count of the returned summary (0 on the error shape). -/
def LoadResult.inserted : LoadResult → ℕ
  | .ok i _ _ => i
  | .error _ => 0

/-- Skipped count of the returned summary (0 on the error shape). -/
def LoadResult.skipped : LoadResult → ℕ
  | .ok _ s _ => s
  | .error _ => 0

/-- Skip reasons of the returned summary ([] on the error shape). -/
def LoadResult.details : LoadResult → List String
  | .ok _ _ d => d
  | .error _ => []

/-- A present value is acceptable to the coordinate coercion: it is either
absent (Python `None`) or `float()` succeeds on it. -/
def coercibleIfPresent (v : JVal) : Bool :=
  v.isNull || (pyFloat? v).isSome

/-- The value is a non-empty string. -/
def nonEmptyStr : JVal → Bool
  | .jstr s => !s.isEmpty
  | _ => false

/-- A well-formed exchange record in the sense of the round-trip claim: an
object with non-empty string `title` and `message` whose present `lat` and
`lng` values are coercible to floats. -/
def wellFormedRec : JVal → Bool
  | .jobj fs =>
      nonEmptyStr (getN fs "title") && nonEmptyStr (getN fs "message") &&
        coercibleIfPresent (getN fs "lat") && coercibleIfPresent (getN fs "lng")
  | _ => false

/-- The both-present-or-both-absent coordinate invariant the spec claims
for persisted Alerts. -/
def coordBothOrNeither (a : DbAlert) : Bool :=
  a.lat.isSome == a.lng.isSome

/-- Key of the alert at position `i` (dedup key of an arbitrary default
row outside the range). -/
def keyAt (alerts : List ScrapedAlert) (i : ℕ) : List Char :=
  messageKey ((alerts.getD i default).message)

/-- Keys occurring strictly before position `i`. -/
def earlierKeys (alerts : List ScrapedAlert) (i : ℕ) : List (List Char) :=
  (alerts.take i).map fun b => messageKey b.message

/-- Spec-side description of deduplication, written from the claim: keep
exactly the positions whose key has not occurred earlier in the sequence,
preserving order. -/
def keptSpec (alerts : List ScrapedAlert) : List ScrapedAlert :=
  (List.range alerts.length).filterMap fun i =>
    if keyAt alerts i ∈ earlierKeys alerts i then none else alerts[i]?

/-- Generalisation of `keptSpec` over an initial set of already-seen
keys. -/
def keptSpecFrom (seen : List (List Char)) (alerts : List ScrapedAlert) :
    List ScrapedAlert :=
  (List.range alerts.length).filterMap fun i =>
    if keyAt alerts i ∈ seen ++ earlierKeys alerts i then none else alerts[i]?

/-! ## Theorems -/

theorem isPrefixOf_eq_true_iff :
    ∀ n h : List Char, n.isPrefixOf h = true ↔ ∃ post, h = n ++ post := by
  intro n
  induction n with
  | nil => intro h; simp [List.isPrefixOf]
  | cons c n ih =>
      intro h
      cases h with
      | nil => simp [List.isPrefixOf]
      | cons d t =>
          simp only [List.isPrefixOf, Bool.and_eq_true, beq_iff_eq, ih t]
          constructor
          · rintro ⟨rfl, post, rfl⟩; exact ⟨post, rfl⟩
          · rintro ⟨post, hp⟩
            cases hp
            exact ⟨rfl, post, rfl⟩

theorem strContains_iff_occursIn (hay needle : List Char) :
    strContains hay needle = true ↔ OccursIn needle hay := by
  induction hay with
  | nil =>
      simp only [strContains, List.isEmpty_iff, OccursIn]
      constructor
      · rintro rfl; exact ⟨[], [], rfl⟩
      · rintro ⟨pre, post, hp⟩
        exact (List.append_eq_nil.mp (List.append_eq_nil.mp hp.symm).1).2
  | cons c t ih =>
      simp only [strContains, Bool.or_eq_true, isPrefixOf_eq_true_iff, ih, OccursIn]
      constructor
      · rintro (⟨post, hp⟩ | ⟨pre, post, hp⟩)
        · exact ⟨[], post, by simpa using hp⟩
        · exact ⟨c :: pre, post, by simp [hp]⟩
      · rintro ⟨pre, post, hp⟩
        cases pre with
        | nil => exact .inl ⟨post, by simpa using hp⟩
        | cons p ps =>
            simp only [List.cons_append] at hp
            injection hp with h1 h2
            exact .inr ⟨ps, post, h2⟩

theorem processBatch_idx (now : ℕ) (items : List JVal) (i j : ℕ) :
    (processBatch now i items).1 = (processBatch now j items).1
    ∧ (processBatch now i items).2.1 = (processBatch now j items).2.1
    ∧ (processBatch now i items).2.2.1 = (processBatch now j items).2.2.1 := by
  induction items generalizing i j with
  | nil => exact ⟨rfl, rfl, rfl⟩
  | cons it rest ih =>
      obtain ⟨h1, h2, h3⟩ := ih (i + 1) (j + 1)
      cases hp : processItem now it <;>
        simp [processBatch, hp, h1, h2, h3]

theorem processBatch_append (now i : ℕ) (xs ys : List JVal) :
    (processBatch now i (xs ++ ys)).1 =
      (processBatch now i xs).1 ++ (processBatch now (i + xs.length) ys).1
    ∧ (processBatch now i (xs ++ ys)).2.1 =
      (processBatch now i xs).2.1 + (processBatch now (i + xs.length) ys).2.1
    ∧ (processBatch now i (xs ++ ys)).2.2.1 =
      (processBatch now i xs).2.2.1 + (processBatch now (i + xs.length) ys).2.2.1
    ∧ (processBatch now i (xs ++ ys)).2.2.2 =
      (processBatch now i xs).2.2.2 ++ (processBatch now (i + xs.length) ys).2.2.2 := by
  induction xs generalizing i with
  | nil => simp [processBatch]
  | cons x xs ih =>
      obtain ⟨h1, h2, h3, h4⟩ := ih (i + 1)
      have hlen : i + 1 + xs.length = i + (xs.length + 1) := by omega
      rw [hlen] at h1 h2 h3 h4
      cases hp : processItem now x <;>
        refine ⟨?_, ?_, ?_, ?_⟩ <;>
        simp only [List.cons_append, processBatch, hp, List.length_cons, List.append_eq,
          h1, h2, h3, h4] <;>
        first
          | rfl
          | exact Nat.add_right_comm _ _ _

/-- Rows produced by a successful `processItem` have well-shaped
coordinates: the coercion branch stores two numbers, the pass-through
branch stores at most one value. -/
theorem processItem_coordWF {now : ℕ} {it : JVal} {a : DbAlert}
    (h : processItem now it = .inl a) : coordWF a = true := by
  cases it with
  | jobj fs =>
      simp only [processItem] at h
      split at h
      · cases h
      · split at h
        · split at h
          · cases h
            simp [coordWF, JVal.isNum]
          · cases h
        · rename_i hcond
          cases h
          simp only [coordWF, optVal]
          cases hl : (getN fs "lat").isNull with
          | true => simp [hl]
          | false =>
              cases hg : (getN fs "lng").isNull with
              | true => simp [hl, hg]
              | false => exact absurd (by simp [hl, hg]) hcond
  | jnull => exact Sum.noConfusion h
  | jbool b => exact Sum.noConfusion h
  | jnum q => exact Sum.noConfusion h
  | jstr s => exact Sum.noConfusion h
  | jarr xs => exact Sum.noConfusion h

theorem processBatch_coordWF (now idx : ℕ) (items : List JVal) :
    ∀ a ∈ (processBatch now idx items).1, coordWF a = true := by
  induction items generalizing idx with
  | nil => intro a ha; cases ha
  | cons it rest ih =>
      intro a ha
      cases hp : processItem now it <;>
        rw [processBatch] at ha <;> rw [hp] at ha
      case inl b =>
        rcases List.mem_cons.mp ha with rfl | hmem
        · exact processItem_coordWF hp
        · exact ih (idx + 1) a hmem
      case inr r => exact ih (idx + 1) a ha

theorem load_storeWF (now : ℕ) (fp : String) (file : Option JVal)
    (prior : List DbAlert) (h : storeWF prior = true) :
    storeWF (load_alerts_from_json now fp file prior).store = true := by
  match file with
  | none => exact h
  | some (.jarr items) =>
      simp only [load_alerts_from_json, storeWF, List.all_eq_true]
      intro a ha
      exact processBatch_coordWF now 0 items a ha
  | some .jnull => exact h
  | some (.jbool b) => exact h
  | some (.jnum q) => exact h
  | some (.jstr s) => exact h
  | some (.jobj fs) => exact h

/-- C10. If the exchange file does not exist, or its top-level JSON value
is not a list, `load_alerts_from_json` returns the `{"error": ...}`
dictionary instead of raising, and the persisted store is exactly the
prior store: both checks fire before the delete-all statement. -/
theorem load_error_leaves_store :
    (∀ (now : ℕ) (fp : String) (prior : List DbAlert),
        load_alerts_from_json now fp none prior =
          ⟨prior, .error (fp ++ " not found")⟩)
    ∧ (∀ (now : ℕ) (fp : String) (v : JVal) (prior : List DbAlert),
        (∀ xs, v ≠ .jarr xs) →
        load_alerts_from_json now fp (some v) prior =
          ⟨prior,
           .error "alerts.json must contain a JSON array (list) of alert objects."⟩) := by
  constructor
  · intro now fp prior
    rfl
  · intro now fp v prior hv
    cases v with
    | jarr xs => exact absurd rfl (hv xs)
    | jnull => rfl
    | jbool b => rfl
    | jnum q => rfl
    | jstr s => rfl
    | jobj fs => rfl

/-- Witness for C10 at a concrete non-list exchange file and a non-empty
prior store. -/
theorem load_error_leaves_store_witness :
    load_alerts_from_json 3 "alerts.json" (some (.jobj [("a", .jnum 1)]))
        [⟨"s", "info", "t", "m", 0, none, none⟩] =
      ⟨[⟨"s", "info", "t", "m", 0, none, none⟩],
       .error "alerts.json must contain a JSON array (list) of alert objects."⟩ :=
  load_error_leaves_store.2 3 "alerts.json" (.jobj [("a", .jnum 1)])
    [⟨"s", "info", "t", "m", 0, none, none⟩] (fun _ h => JVal.noConfusion h)

theorem nonEmptyStr_truthy {v : JVal} (h : nonEmptyStr v = true) :
    pyTruthy v = true := by
  cases v <;> simp_all [nonEmptyStr, pyTruthy]

theorem coercible_not_null {v : JVal} (hc : coercibleIfPresent v = true)
    (hn : v.isNull = false) : ∃ q, pyFloat? v = some q := by
  rw [coercibleIfPresent, hn, Bool.false_or, Option.isSome_iff_exists] at hc
  exact hc

theorem wellFormed_processItem (now : ℕ) (it : JVal)
    (h : wellFormedRec it = true) : ∃ a, processItem now it = .inl a := by
  cases it with
  | jobj fs =>
      simp only [wellFormedRec, Bool.and_eq_true] at h
      obtain ⟨⟨⟨ht, hm⟩, hlat⟩, hlng⟩ := h
      have ht' := nonEmptyStr_truthy ht
      have hm' := nonEmptyStr_truthy hm
      cases hl : (getN fs "lat").isNull with
      | false =>
          cases hg : (getN fs "lng").isNull with
          | false =>
              obtain ⟨qa, hqa⟩ := coercible_not_null hlat hl
              obtain ⟨qb, hqb⟩ := coercible_not_null hlng hg
              exact ⟨⟨pyStr (getDef fs "source" (.jstr "unknown")),
                      pyStr (getDef fs "severity" (.jstr "info")),
                      pyStr (getN fs "title"), pyStr (getN fs "message"),
                      now, some (.jnum qa), some (.jnum qb)⟩,
                by simp [processItem, ht', hm', hl, hg, hqa, hqb]⟩
          | true =>
              exact ⟨⟨pyStr (getDef fs "source" (.jstr "unknown")),
                      pyStr (getDef fs "severity" (.jstr "info")),
                      pyStr (getN fs "title"), pyStr (getN fs "message"),
                      now, optVal (getN fs "lat"), optVal (getN fs "lng")⟩,
                by simp [processItem, ht', hm', hl, hg]⟩
      | true =>
          exact ⟨⟨pyStr (getDef fs "source" (.jstr "unknown")),
                  pyStr (getDef fs "severity" (.jstr "info")),
                  pyStr (getN fs "title"), pyStr (getN fs "message"),
                  now, optVal (getN fs "lat"), optVal (getN fs "lng")⟩,
            by simp [processItem, ht', hm', hl]⟩
  | jnull => exact absurd h (by simp [wellFormedRec])
  | jbool b => exact absurd h (by simp [wellFormedRec])
  | jnum q => exact absurd h (by simp [wellFormedRec])
  | jstr s => exact absurd h (by simp [wellFormedRec])
  | jarr xs => exact absurd h (by simp [wellFormedRec])

theorem processBatch_allWF (now idx : ℕ) (items : List JVal)
    (h : ∀ it ∈ items, wellFormedRec it = true) :
    (processBatch now idx items).2.1 = items.length
    ∧ (processBatch now idx items).2.2.1 = 0
    ∧ (processBatch now idx items).2.2.2 = []
    ∧ (processBatch now idx items).1.length = items.length := by
  induction items generalizing idx with
  | nil => exact ⟨rfl, rfl, rfl, rfl⟩
  | cons it rest ih =>
      obtain ⟨a, ha⟩ := wellFormed_processItem now it (h it (List.mem_cons_self it rest))
      obtain ⟨h1, h2, h3, h4⟩ := ih (idx + 1) (fun x hx => h x (List.mem_cons_of_mem it hx))
      simp [processBatch, ha, h1, h2, h3, h4]

/-- C3. Syncing a JSON array of N well-formed records returns
`inserted == N`, `skipped == 0` with no skip reasons; the resulting store
holds exactly N rows and is the same whatever was persisted before the
sync (the delete-all step runs before any insertion, so no prior record
survives). -/
theorem storesync_roundtrip (now : ℕ) (fp : String) (items : List JVal)
    (prior : List DbAlert) (h : ∀ it ∈ items, wellFormedRec it = true) :
    (load_alerts_from_json now fp (some (.jarr items)) prior).result =
        .ok items.length 0 []
    ∧ (load_alerts_from_json now fp (some (.jarr items)) prior).store.length =
        items.length
    ∧ (load_alerts_from_json now fp (some (.jarr items)) prior).store =
        (load_alerts_from_json now fp (some (.jarr items)) []).store := by
  obtain ⟨h1, h2, h3, h4⟩ := processBatch_allWF now 0 items h
  refine ⟨?_, ?_, rfl⟩
  · simp only [load_alerts_from_json, h1, h2, h3]
  · simpa only [load_alerts_from_json] using h4

/-- Witness for C3: a two-record well-formed batch (one record with
coercible string coordinates) synced over a non-empty prior store. -/
theorem storesync_roundtrip_witness :
    (load_alerts_from_json 7 "alerts.json"
        (some (.jarr [.jobj [("title", .jstr "A"), ("message", .jstr "m1")],
                      .jobj [("title", .jstr "B"), ("message", .jstr "m2"),
                             ("lat", .jnum 10), ("lng", .jstr "20.5")]]))
        [⟨"s", "info", "old", "old", 0, none, none⟩]).result = .ok 2 0 []
    ∧ (load_alerts_from_json 7 "alerts.json"
        (some (.jarr [.jobj [("title", .jstr "A"), ("message", .jstr "m1")],
                      .jobj [("title", .jstr "B"), ("message", .jstr "m2"),
                             ("lat", .jnum 10), ("lng", .jstr "20.5")]]))
        [⟨"s", "info", "old", "old", 0, none, none⟩]).store.length = 2 := by
  have h := storesync_roundtrip 7 "alerts.json"
    [.jobj [("title", .jstr "A"), ("message", .jstr "m1")],
     .jobj [("title", .jstr "B"), ("message", .jstr "m2"),
            ("lat", .jnum 10), ("lng", .jstr "20.5")]]
    [⟨"s", "info", "old", "old", 0, none, none⟩] (by decide)
  exact ⟨h.1, h.2.1⟩

/-- Counterexample to C1 as stated: a record with `lat` present and `lng`
missing is NOT skipped — the coercion guard `if lat is not None and lng is
not None` passes it through untouched — so it is inserted with `lat`
present and `lng` absent, violating the claimed both-or-neither invariant
of the persisted store. -/
theorem storesync_lat_without_lng_inserted :
    load_alerts_from_json 0 "alerts.json"
        (some (.jarr [.jobj [("title", .jstr "t"), ("message", .jstr "m"),
                             ("lat", .jnum 5)]])) []
      = ⟨[⟨"unknown", "info", "t", "m", 0, some (.jnum 5), none⟩], .ok 1 0 []⟩
    ∧ coordBothOrNeither ⟨"unknown", "info", "t", "m", 0, some (.jnum 5), none⟩
      = false := by
  exact ⟨rfl, rfl⟩

/-- C1 (amended).  The coercion check fires only when `lat` and `lng` are
both present: such a record with a non-coercible coordinate is skipped
with the reason `idx i: invalid lat/lng` keyed by its index and not
inserted, while the rest of the batch is unaffected (deleting the bad
record changes neither the resulting store nor the inserted count, and
lowers the skipped count by one); and every persisted row that has both
coordinates present has both numeric.  (A record with only one coordinate
present is inserted as-is — the invariant claimed for that case fails,
see the counterexample.) -/
theorem storesync_invalid_coords_skipped :
    (∀ (now : ℕ) (fp : String) (prior : List DbAlert)
        (pre : List JVal) (fs : List (String × JVal)) (post : List JVal),
        pyTruthy (getN fs "title") = true →
        pyTruthy (getN fs "message") = true →
        (getN fs "lat").isNull = false →
        (getN fs "lng").isNull = false →
        (pyFloat? (getN fs "lat") = none ∨ pyFloat? (getN fs "lng") = none) →
        (load_alerts_from_json now fp (some (.jarr (pre ++ .jobj fs :: post)))
            prior).store =
          (load_alerts_from_json now fp (some (.jarr (pre ++ post))) prior).store
        ∧ (load_alerts_from_json now fp (some (.jarr (pre ++ .jobj fs :: post)))
            prior).result.inserted =
          (load_alerts_from_json now fp (some (.jarr (pre ++ post)))
            prior).result.inserted
        ∧ (load_alerts_from_json now fp (some (.jarr (pre ++ .jobj fs :: post)))
            prior).result.skipped =
          (load_alerts_from_json now fp (some (.jarr (pre ++ post)))
            prior).result.skipped + 1
        ∧ s!"idx {pre.length}: invalid lat/lng" ∈
            (load_alerts_from_json now fp (some (.jarr (pre ++ .jobj fs :: post)))
              prior).result.details)
    ∧ (∀ (now : ℕ) (fp : String) (file : Option JVal) (prior : List DbAlert),
        storeWF prior = true →
        storeWF (load_alerts_from_json now fp file prior).store = true) := by
  constructor
  · intro now fp prior pre fs post ht hm hl hg hbad
    have hitem : processItem now (.jobj fs) = .inr .invalidLatLng := by
      simp only [processItem]
      rw [if_neg (by simp [ht, hm]), if_pos (by simp [hl, hg])]
      rcases hbad with hb | hb
      · rw [hb]
      · cases hqa : pyFloat? (getN fs "lat") with
        | none => rfl
        | some qa => rw [hb]
    obtain ⟨b1, b2, b3, b4⟩ := processBatch_append now 0 pre (.jobj fs :: post)
    obtain ⟨g1, g2, g3, g4⟩ := processBatch_append now 0 pre post
    obtain ⟨i1, i2, i3⟩ :=
      processBatch_idx now post (pre.length + 1) pre.length
    simp only [Nat.zero_add] at b1 b2 b3 b4 g1 g2 g3 g4
    refine ⟨?_, ?_, ?_, ?_⟩
    · simp only [load_alerts_from_json, b1, g1, processBatch, hitem, i1]
    · simp only [load_alerts_from_json, LoadResult.inserted, b2, g2, processBatch,
        hitem, i2]
    · simp only [load_alerts_from_json, LoadResult.skipped, b3, g3, processBatch,
        hitem, i3]
      exact (Nat.add_assoc _ _ _).symm
    · simp only [load_alerts_from_json, LoadResult.details, b4, processBatch, hitem]
      have hr : s!"idx {pre.length}: invalid lat/lng" =
          SkipReason.render pre.length .invalidLatLng := rfl
      rw [hr]
      exact List.mem_append_right _ (List.mem_cons_self _ _)
  · exact load_storeWF

/-- Witness for the amended C1 at a concrete batch: the middle record has
both coordinates present but a non-numeric `lat`. -/
theorem storesync_invalid_coords_skipped_witness :
    (load_alerts_from_json 0 "alerts.json"
        (some (.jarr [.jobj [("title", .jstr "t"), ("message", .jstr "m"),
                             ("lat", .jstr "x"), ("lng", .jnum 1)],
                      .jobj [("title", .jstr "u"), ("message", .jstr "v")]]))
        []).store =
      (load_alerts_from_json 0 "alerts.json"
        (some (.jarr [.jobj [("title", .jstr "u"), ("message", .jstr "v")]]))
        []).store
    ∧ (load_alerts_from_json 0 "alerts.json"
        (some (.jarr [.jobj [("title", .jstr "t"), ("message", .jstr "m"),
                             ("lat", .jstr "x"), ("lng", .jnum 1)],
                      .jobj [("title", .jstr "u"), ("message", .jstr "v")]]))
        []).result.skipped =
      (load_alerts_from_json 0 "alerts.json"
        (some (.jarr [.jobj [("title", .jstr "u"), ("message", .jstr "v")]]))
        []).result.skipped + 1
    ∧ "idx 0: invalid lat/lng" ∈
        (load_alerts_from_json 0 "alerts.json"
          (some (.jarr [.jobj [("title", .jstr "t"), ("message", .jstr "m"),
                               ("lat", .jstr "x"), ("lng", .jnum 1)],
                        .jobj [("title", .jstr "u"), ("message", .jstr "v")]]))
          []).result.details := by
  have h := storesync_invalid_coords_skipped.1 0 "alerts.json" [] []
    [("title", .jstr "t"), ("message", .jstr "m"),
     ("lat", .jstr "x"), ("lng", .jnum 1)]
    [.jobj [("title", .jstr "u"), ("message", .jstr "v")]]
    (by decide) (by decide) (by decide) (by decide) (Or.inl (by decide))
  exact ⟨h.1, h.2.2.1, h.2.2.2⟩

theorem any_contains_iff (tl : List Char) (kws : List String) :
    (kws.any fun k => strContains tl (lowerStr k.toList)) = true ↔
      ∃ k ∈ kws, OccursIn (lowerStr k.toList) tl := by
  rw [List.any_eq_true]
  constructor
  · rintro ⟨k, hk, hc⟩
    exact ⟨k, hk, (strContains_iff_occursIn tl (lowerStr k.toList)).mp hc⟩
  · rintro ⟨k, hk, ho⟩
    exact ⟨k, hk, (strContains_iff_occursIn tl (lowerStr k.toList)).mpr ho⟩

/-- C2. The classifier is a pure function of the text; it returns
`emergency` exactly when some emergency keyword occurs case-insensitively
in the text (even when warning keywords also occur), `warning` exactly
when no emergency keyword but some warning keyword occurs, and `info`
exactly when neither occurs. -/
theorem severity_keyword_precedence (text : String) :
    (determine_severity text = "emergency" ↔
      ∃ k ∈ emergency_keywords, OccursIn (lowerStr k.toList) (lowerStr text.toList))
    ∧ (determine_severity text = "warning" ↔
      (¬ ∃ k ∈ emergency_keywords,
          OccursIn (lowerStr k.toList) (lowerStr text.toList))
      ∧ ∃ k ∈ warning_keywords, OccursIn (lowerStr k.toList) (lowerStr text.toList))
    ∧ (determine_severity text = "info" ↔
      (¬ ∃ k ∈ emergency_keywords,
          OccursIn (lowerStr k.toList) (lowerStr text.toList))
      ∧ ¬ ∃ k ∈ warning_keywords,
          OccursIn (lowerStr k.toList) (lowerStr text.toList)) := by
  by_cases he : (emergency_keywords.any fun k =>
      strContains (lowerStr text.toList) (lowerStr k.toList)) = true
  · have hocc := (any_contains_iff (lowerStr text.toList) emergency_keywords).mp he
    rw [determine_severity]
    simp only [he, if_true]
    refine ⟨iff_of_true trivial hocc, ?_, ?_⟩
    · exact iff_of_false (by decide) (fun hc => hc.1 hocc)
    · exact iff_of_false (by decide) (fun hc => hc.1 hocc)
  · have hnocc : ¬ ∃ k ∈ emergency_keywords,
        OccursIn (lowerStr k.toList) (lowerStr text.toList) :=
      fun hc => he ((any_contains_iff _ _).mpr hc)
    rw [determine_severity]
    simp only [Bool.not_eq_true] at he
    simp only [he, Bool.false_eq_true, if_false]
    by_cases hw : (warning_keywords.any fun k =>
        strContains (lowerStr text.toList) (lowerStr k.toList)) = true
    · have hwocc := (any_contains_iff (lowerStr text.toList) warning_keywords).mp hw
      simp only [hw, if_true]
      refine ⟨?_, iff_of_true trivial ⟨hnocc, hwocc⟩, ?_⟩
      · exact iff_of_false (by decide) hnocc
      · exact iff_of_false (by decide) (fun hc => hc.2 hwocc)
    · have hwnocc : ¬ ∃ k ∈ warning_keywords,
          OccursIn (lowerStr k.toList) (lowerStr text.toList) :=
        fun hc => hw ((any_contains_iff _ _).mpr hc)
      simp only [Bool.not_eq_true] at hw
      simp only [hw, Bool.false_eq_true, if_false]
      refine ⟨?_, ?_, iff_of_true trivial ⟨hnocc, hwnocc⟩⟩
      · exact iff_of_false (by decide) hnocc
      · exact iff_of_false (by decide) (fun hc => hwnocc hc.2)

/-- Witness for C2 on concrete texts: an emergency keyword beats a
co-occurring warning keyword, a warning keyword alone yields `warning`,
and neutral text yields `info`. -/
theorem severity_keyword_precedence_witness :
    determine_severity "TSUNAMI Warning issued" = "emergency"
    ∧ determine_severity "high tide expected" = "warning"
    ∧ determine_severity "calm seas today" = "info" := by
  refine ⟨?_, ?_, ?_⟩
  · exact (severity_keyword_precedence "TSUNAMI Warning issued").1.mpr
      ⟨"tsunami", by decide, (strContains_iff_occursIn _ _).mp (by decide)⟩
  · exact (severity_keyword_precedence "high tide expected").2.1.mpr
      ⟨fun hc => absurd ((any_contains_iff _ _).mpr hc) (by decide),
       "high tide", by decide, (strContains_iff_occursIn _ _).mp (by decide)⟩
  · exact (severity_keyword_precedence "calm seas today").2.2.mpr
      ⟨fun hc => absurd ((any_contains_iff _ _).mpr hc) (by decide),
       fun hc => absurd ((any_contains_iff _ _).mpr hc) (by decide)⟩

/-- Counterexample to C4 as stated: a location containing both
`'bay of bengal'` and `'arabian sea'` contains `'arabian sea'`, yet the
override chain returns the Bay of Bengal coordinate `(15.0, 87.0)`, not
`(15.0, 68.0)`: the overrides are an ordered `if`/`elif` chain, not
independent rules. -/
theorem geocode_override_shadowed :
    OccursIn ("arabian sea".toList)
      (lowerStr ("Bay of Bengal and Arabian Sea".toList))
    ∧ geocode_location (fun _ => none) "Bay of Bengal and Arabian Sea"
        = (some (15, 87), false)
    ∧ (some ((15 : ℚ), (87 : ℚ)), false) ≠ (some ((15 : ℚ), (68 : ℚ)), false) := by
  refine ⟨(strContains_iff_occursIn _ _).mp (by decide), rfl, by decide⟩

/-- C4 (amended).  The three water-body overrides are checked
case-insensitively by substring containment, in the order `bay of bengal`,
`arabian sea`, `indian ocean`, each before any external lookup: a location
containing an override keyword (and none of the earlier ones) returns
exactly that fixed coordinate with the external geocoder never invoked;
only a location containing none of the three reaches the external lookup,
which is queried with `"<location>, India"`. -/
theorem geocode_overrides_ordered
    (lookup : String → Option (ℚ × ℚ)) (location : String) :
    (OccursIn ("bay of bengal".toList) (lowerStr location.toList) →
      geocode_location lookup location = (some (15, 87), false))
    ∧ (¬ OccursIn ("bay of bengal".toList) (lowerStr location.toList) →
        OccursIn ("arabian sea".toList) (lowerStr location.toList) →
      geocode_location lookup location = (some (15, 68), false))
    ∧ (¬ OccursIn ("bay of bengal".toList) (lowerStr location.toList) →
        ¬ OccursIn ("arabian sea".toList) (lowerStr location.toList) →
        OccursIn ("indian ocean".toList) (lowerStr location.toList) →
      geocode_location lookup location = (some (10, 75), false))
    ∧ (¬ OccursIn ("bay of bengal".toList) (lowerStr location.toList) →
        ¬ OccursIn ("arabian sea".toList) (lowerStr location.toList) →
        ¬ OccursIn ("indian ocean".toList) (lowerStr location.toList) →
      geocode_location lookup location = (lookup (location ++ ", India"), true)) := by
  refine ⟨?_, ?_, ?_, ?_⟩
  · intro h1
    rw [geocode_location,
      if_pos ((strContains_iff_occursIn _ _).mpr h1)]
  · intro h1 h2
    rw [geocode_location,
      if_neg (fun hc => h1 ((strContains_iff_occursIn _ _).mp hc)),
      if_pos ((strContains_iff_occursIn _ _).mpr h2)]
  · intro h1 h2 h3
    rw [geocode_location,
      if_neg (fun hc => h1 ((strContains_iff_occursIn _ _).mp hc)),
      if_neg (fun hc => h2 ((strContains_iff_occursIn _ _).mp hc)),
      if_pos ((strContains_iff_occursIn _ _).mpr h3)]
  · intro h1 h2 h3
    rw [geocode_location,
      if_neg (fun hc => h1 ((strContains_iff_occursIn _ _).mp hc)),
      if_neg (fun hc => h2 ((strContains_iff_occursIn _ _).mp hc)),
      if_neg (fun hc => h3 ((strContains_iff_occursIn _ _).mp hc))]

/-- Witness for the amended C4: each override on a concrete location, and
the external fall-through with its `", India"` query. -/
theorem geocode_overrides_ordered_witness :
    geocode_location (fun _ => none) "BAY of Bengal coast" = (some (15, 87), false)
    ∧ geocode_location (fun _ => none) "Central Arabian Sea" = (some (15, 68), false)
    ∧ geocode_location (fun _ => none) "South Indian Ocean" = (some (10, 75), false)
    ∧ geocode_location (fun _ => some (9, 76)) "Kochi"
        = (some (9, 76), true) := by
  refine ⟨?_, ?_, ?_, ?_⟩
  · exact (geocode_overrides_ordered (fun _ => none) "BAY of Bengal coast").1
      ((strContains_iff_occursIn _ _).mp (by decide))
  · exact (geocode_overrides_ordered (fun _ => none) "Central Arabian Sea").2.1
      (fun hc => absurd ((strContains_iff_occursIn _ _).mpr hc) (by decide))
      ((strContains_iff_occursIn _ _).mp (by decide))
  · exact (geocode_overrides_ordered (fun _ => none) "South Indian Ocean").2.2.1
      (fun hc => absurd ((strContains_iff_occursIn _ _).mpr hc) (by decide))
      (fun hc => absurd ((strContains_iff_occursIn _ _).mpr hc) (by decide))
      ((strContains_iff_occursIn _ _).mp (by decide))
  · exact (geocode_overrides_ordered (fun _ => some (9, 76)) "Kochi").2.2.2
      (fun hc => absurd ((strContains_iff_occursIn _ _).mpr hc) (by decide))
      (fun hc => absurd ((strContains_iff_occursIn _ _).mpr hc) (by decide))
      (fun hc => absurd ((strContains_iff_occursIn _ _).mpr hc) (by decide))

theorem filterMap_range_succ {β : Type} (f : ℕ → Option β) (n : ℕ) :
    List.filterMap f (List.range (n + 1)) =
      (f 0).toList ++ List.filterMap (f ∘ Nat.succ) (List.range n) := by
  rw [List.range_succ_eq_map, List.filterMap_cons, List.filterMap_map]
  cases h : f 0 <;> rfl

theorem keptSpecFrom_cons (seen : List (List Char)) (a : ScrapedAlert)
    (rest : List ScrapedAlert) :
    keptSpecFrom seen (a :: rest) =
      (if messageKey a.message ∈ seen then [] else [a]) ++
        keptSpecFrom (if messageKey a.message ∈ seen then seen
          else messageKey a.message :: seen) rest := by
  have hshift : ∀ i, keyAt (a :: rest) (i + 1) = keyAt rest i := fun i => rfl
  have hekshift : ∀ i, earlierKeys (a :: rest) (i + 1) =
      messageKey a.message :: earlierKeys rest i := fun i => rfl
  unfold keptSpecFrom
  rw [List.length_cons, filterMap_range_succ]
  by_cases hmem : messageKey a.message ∈ seen
  · have hhead : (if keyAt (a :: rest) 0 ∈ seen ++ earlierKeys (a :: rest) 0
        then none else (a :: rest)[0]?) = (none : Option ScrapedAlert) := by
      rw [if_pos]
      show messageKey a.message ∈ seen ++ []
      rw [List.append_nil]
      exact hmem
    rw [hhead, if_pos hmem, if_pos hmem, List.nil_append]
    show List.filterMap _ _ = List.filterMap _ _
    congr 1
    funext i
    show (if keyAt (a :: rest) (i + 1) ∈ seen ++ earlierKeys (a :: rest) (i + 1)
        then none else (a :: rest)[i + 1]?) = _
    rw [List.getElem?_cons_succ, hshift i, hekshift i]
    refine if_congr ?_ rfl rfl
    simp only [List.mem_append, List.mem_cons]
    constructor
    · rintro (hs | (he | hr))
      · exact Or.inl hs
      · exact Or.inl (he ▸ hmem)
      · exact Or.inr hr
    · rintro (hs | hr)
      · exact Or.inl hs
      · exact Or.inr (Or.inr hr)
  · have hhead : (if keyAt (a :: rest) 0 ∈ seen ++ earlierKeys (a :: rest) 0
        then none else (a :: rest)[0]?) = some a := by
      rw [if_neg, List.getElem?_cons_zero]
      show ¬ messageKey a.message ∈ seen ++ []
      rw [List.append_nil]
      exact hmem
    rw [hhead, if_neg hmem, if_neg hmem, List.singleton_append]
    show _ :: List.filterMap _ _ = _ :: List.filterMap _ _
    congr 1
    congr 1
    funext i
    show (if keyAt (a :: rest) (i + 1) ∈ seen ++ earlierKeys (a :: rest) (i + 1)
        then none else (a :: rest)[i + 1]?) = _
    rw [List.getElem?_cons_succ, hshift i, hekshift i]
    refine if_congr ?_ rfl rfl
    simp only [List.mem_append, List.mem_cons]
    tauto

theorem dedupLoop_eq_keptSpecFrom (alerts : List ScrapedAlert) :
    ∀ seen, (dedupLoop seen alerts).1 = keptSpecFrom seen alerts := by
  induction alerts with
  | nil => intro seen; rfl
  | cons a rest ih =>
      intro seen
      rw [keptSpecFrom_cons]
      by_cases hmem : messageKey a.message ∈ seen
      · rw [if_pos hmem, if_pos hmem, List.nil_append, ← ih seen]
        simp [dedupLoop, hmem]
      · rw [if_neg hmem, if_neg hmem, List.singleton_append, ← ih]
        simp [dedupLoop, hmem]

theorem keptSpecFrom_nil_eq (alerts : List ScrapedAlert) :
    keptSpecFrom [] alerts = keptSpec alerts := rfl

theorem dedupLoop_counts (alerts : List ScrapedAlert) :
    ∀ seen, (dedupLoop seen alerts).2.1 = (dedupLoop seen alerts).1.length
      ∧ (dedupLoop seen alerts).2.1 + (dedupLoop seen alerts).2.2 = alerts.length := by
  induction alerts with
  | nil => intro seen; exact ⟨rfl, rfl⟩
  | cons a rest ih =>
      intro seen
      by_cases hmem : messageKey a.message ∈ seen
      · obtain ⟨h1, h2⟩ := ih seen
        constructor
        · simp only [dedupLoop, if_pos hmem]
          exact h1
        · simp only [dedupLoop, if_pos hmem, List.length_cons]
          exact (Nat.add_assoc _ _ _).symm.trans (congrArg (· + 1) h2)
      · obtain ⟨h1, h2⟩ := ih (messageKey a.message :: seen)
        constructor
        · simp only [dedupLoop, if_neg hmem, List.length_cons]
          exact congrArg (· + 1) h1
        · simp only [dedupLoop, if_neg hmem, List.length_cons]
          exact (Nat.add_right_comm _ _ _).trans (congrArg (· + 1) h2)

/-- Counterexample to C5's final sentence as stated: two Alerts whose
messages differ within the first 100 characters — here only by letter
case — share the lowercased key, so the second IS dropped rather than
kept. -/
theorem dedup_case_only_difference_dropped :
    (dedupLoop [] [⟨"t1", "Tsunami watch", "info", "INCOIS", none, none, "0"⟩,
                   ⟨"t2", "tSUNAMI WATCH", "info", "INCOIS", none, none, "0"⟩]).1
      = [⟨"t1", "Tsunami watch", "info", "INCOIS", none, none, "0"⟩]
    ∧ "Tsunami watch".toList.take 100 ≠ "tSUNAMI WATCH".toList.take 100 := by
  exact ⟨by decide, by decide⟩

/-- C5 (amended).  Deduplication keeps exactly those Alerts whose key —
the lowercase of the first 100 characters of `message` — has not occurred
earlier in the sequence, preserving order; kept Alerts are counted as
processed and dropped ones as skipped; and two Alerts whose lowercased
100-character prefixes differ are both kept.  (Two alerts differing only
in case within the prefix collapse, see the counterexample.) -/
theorem dedup_first_occurrence :
    (∀ alerts : List ScrapedAlert, (dedupLoop [] alerts).1 = keptSpec alerts)
    ∧ (∀ alerts : List ScrapedAlert,
        (dedupLoop [] alerts).2.1 = (dedupLoop [] alerts).1.length
        ∧ (dedupLoop [] alerts).2.1 + (dedupLoop [] alerts).2.2 = alerts.length)
    ∧ (∀ a1 a2 : ScrapedAlert,
        messageKey a1.message ≠ messageKey a2.message →
        (dedupLoop [] [a1, a2]).1 = [a1, a2]) := by
  refine ⟨?_, ?_, ?_⟩
  · intro alerts
    rw [dedupLoop_eq_keptSpecFrom, keptSpecFrom_nil_eq]
  · intro alerts
    exact dedupLoop_counts alerts []
  · intro a1 a2 h
    have h2 : messageKey a2.message ∉ [messageKey a1.message] := by
      intro hc
      exact h (List.mem_singleton.mp hc).symm
    simp only [dedupLoop, List.not_mem_nil, if_neg h2, if_neg (List.not_mem_nil _)]
    rfl

/-- Witness for C5: two alerts with different keys are both kept, in
order. -/
theorem dedup_first_occurrence_witness :
    (dedupLoop [] [⟨"t1", "wave alert", "info", "INCOIS", none, none, "0"⟩,
                   ⟨"t2", "storm alert", "info", "INCOIS", none, none, "0"⟩]).1
      = [⟨"t1", "wave alert", "info", "INCOIS", none, none, "0"⟩,
         ⟨"t2", "storm alert", "info", "INCOIS", none, none, "0"⟩] :=
  dedup_first_occurrence.2.2 _ _ (by decide)

theorem pagesLoop_all_nil (pages : List (List ScrapedAlert))
    (h : ∀ p ∈ pages, p = []) : pagesLoop [] pages = [] := by
  induction pages with
  | nil => rfl
  | cons p rest ih =>
      have hp : p = [] := h p (List.mem_cons_self p rest)
      subst hp
      show (if 5 ≤ (([] ++ [] : List ScrapedAlert)).length
          then ([] ++ [] : List ScrapedAlert)
          else pagesLoop ([] ++ []) rest) = []
      rw [List.append_nil]
      rw [if_neg (by simp)]
      exact ih (fun q hq => h q (List.mem_cons_of_mem _ hq))

theorem sample_dedup (now : String) :
    dedupLoop [] (sample_alerts now) = (sample_alerts now, 3, 0) := by
  rfl

theorem result_ne_nil (now : String) (all : List ScrapedAlert) :
    (if (dedupLoop [] all).1.isEmpty = true
      then (sample_alerts now, (sample_alerts now).length, (dedupLoop [] all).2.2)
      else ((dedupLoop [] all).1, (dedupLoop [] all).2.1, (dedupLoop [] all).2.2)).1
      ≠ [] := by
  split
  · simp [sample_alerts]
  · rename_i h
    rw [Bool.not_eq_true, List.isEmpty_eq_false] at h
    exact h

/-- C6.  `fetch_incois_alerts` always returns a non-empty list of alert
records: if scraping every feed and page produced zero Alerts, the fixed
sample Alerts are substituted (and survive deduplication intact, their
keys being distinct), and the post-dedup empty check substitutes them
again, so a completed run never yields an empty result. -/
theorem fetch_alerts_nonempty :
    (∀ (now : String) (feeds pages : List (List ScrapedAlert)),
        (fetch_incois_alerts now feeds pages).1 ≠ [])
    ∧ (∀ (now : String) (feeds pages : List (List ScrapedAlert)),
        feeds.flatten = [] → (∀ p ∈ pages, p = []) →
        fetch_incois_alerts now feeds pages = (sample_alerts now, 3, 0)) := by
  constructor
  · intro now feeds pages
    unfold fetch_incois_alerts
    dsimp only
    split <;> exact result_ne_nil now _
  · intro now feeds pages h1 h2
    unfold fetch_incois_alerts
    rw [h1, pagesLoop_all_nil pages h2]
    simp only [List.isEmpty_nil, if_true]
    rw [sample_dedup now]
    simp [sample_alerts]

/-- Witness for C6: a run with seven dead feeds and pages (all empty)
produces exactly the three sample alerts. -/
theorem fetch_alerts_nonempty_witness :
    fetch_incois_alerts "2025-01-01T00:00:00+00:00" [[], [], [], [], [], [], []]
        [[], [], [], [], [], [], []] =
      (sample_alerts "2025-01-01T00:00:00+00:00", 3, 0)
    ∧ (fetch_incois_alerts "2025-01-01T00:00:00+00:00" [[], [], [], [], [], [], []]
        [[], [], [], [], [], [], []]).1 ≠ [] := by
  constructor
  · exact fetch_alerts_nonempty.2 "2025-01-01T00:00:00+00:00" _ _ rfl
      (by intro p hp; simp at hp; simp [hp])
  · exact fetch_alerts_nonempty.1 "2025-01-01T00:00:00+00:00" _ _

theorem sin_sq_swap (a b : ℝ) :
    Real.sin (radians (a - b) / 2) ^ 2 = Real.sin (radians (b - a) / 2) ^ 2 := by
  have h : radians (a - b) / 2 = -(radians (b - a) / 2) := by
    unfold radians
    ring
  rw [h, Real.sin_neg, neg_sq]

theorem hav_a_comm (lat1 lon1 lat2 lon2 : ℝ) :
    hav_a lat1 lon1 lat2 lon2 = hav_a lat2 lon2 lat1 lon1 := by
  unfold hav_a
  rw [sin_sq_swap lat2 lat1, sin_sq_swap lon2 lon1,
    mul_comm (Real.cos (radians lat1)) (Real.cos (radians lat2))]

theorem hav_a_self (lat lon : ℝ) : hav_a lat lon lat lon = 0 := by
  unfold hav_a
  simp [radians]

theorem haversine_self (lat lon : ℝ) : haversine_km lat lon lat lon = 0 := by
  unfold haversine_km
  rw [hav_a_self, Real.sqrt_zero, sub_zero, Real.sqrt_one]
  rw [atan2, if_pos one_pos, zero_div, Real.arctan_zero]
  ring

/-- C9.  `haversine_km` is symmetric in its two coordinate pairs, and the
distance from a point to itself is exactly 0 (the intermediate `a` is 0,
so `c = 2*atan2(0, 1) = 0`). -/
theorem haversine_symm_self :
    (∀ lat1 lon1 lat2 lon2 : ℝ,
        haversine_km lat1 lon1 lat2 lon2 = haversine_km lat2 lon2 lat1 lon1)
    ∧ (∀ lat lon : ℝ, haversine_km lat lon lat lon = 0) := by
  constructor
  · intro lat1 lon1 lat2 lon2
    unfold haversine_km
    rw [hav_a_comm]
  · exact haversine_self

theorem nearby_filter_mem (store : List DbAlert) (h : storeWF store = true)
    (qlat qlng r : ℝ) (a : DbAlert) (d : ℝ) :
    (a, d) ∈ alerts_nearby_filter store qlat qlng r ↔
      a ∈ store ∧ ∃ la lg : ℚ, a.lat = some (.jnum la) ∧ a.lng = some (.jnum lg) ∧
        haversine_km qlat qlng (la : ℝ) (lg : ℝ) ≤ r ∧
        d = pyRound2 (haversine_km qlat qlng (la : ℝ) (lg : ℝ)) := by
  rw [alerts_nearby_filter, List.mem_filterMap]
  constructor
  · rintro ⟨b, hb, hf⟩
    cases hd : alertDist qlat qlng b with
    | none => simp [hd] at hf
    | some dist =>
        simp only [hd] at hf
        by_cases hle : dist ≤ r
        · rw [if_pos hle] at hf
          have hpair := Option.some.inj hf
          injection hpair with hba hdd
          subst hba
          subst hdd
          have hwf : coordWF b = true := List.all_eq_true.mp h b hb
          unfold alertDist at hd
          cases hbl : b.lat with
          | none => rw [hbl] at hd; cases hd
          | some lv =>
              cases hbg : b.lng with
              | none => rw [hbl, hbg] at hd; cases hd
              | some gv =>
                  rw [hbl, hbg] at hd
                  unfold coordWF at hwf
                  rw [hbl, hbg, Bool.and_eq_true] at hwf
                  obtain ⟨hlnum, hgnum⟩ := hwf
                  cases lv with
                  | jnum la =>
                      cases gv with
                      | jnum lg =>
                          simp only [numericVal?] at hd
                          have hdist := Option.some.inj hd
                          refine ⟨hb, la, lg, rfl, rfl, ?_, ?_⟩
                          · rw [hdist]; exact hle
                          · rw [hdist]
                      | jnull => cases hgnum
                      | jbool b => cases hgnum
                      | jstr s => cases hgnum
                      | jarr xs => cases hgnum
                      | jobj fs => cases hgnum
                  | jnull => cases hlnum
                  | jbool b => cases hlnum
                  | jstr s => cases hlnum
                  | jarr xs => cases hlnum
                  | jobj fs => cases hlnum
        · rw [if_neg hle] at hf; cases hf
  · rintro ⟨hmem, la, lg, hbl, hbg, hle, rfl⟩
    refine ⟨a, hmem, ?_⟩
    unfold alertDist
    rw [hbl, hbg]
    simp only [numericVal?]
    rw [if_pos hle]

/-- C7.  The `/alerts-nearby` route (which first re-syncs the store from
the exchange file) returns exactly those persisted Alerts that have both
`lat` and `lng` present — necessarily numeric, by the store invariant —
and whose haversine distance to the query point is at most `radius_km`,
each annotated with that distance rounded to 2 decimals; Alerts missing a
coordinate are silently excluded. -/
theorem nearby_membership (now : ℕ) (fp : String) (file : Option JVal)
    (prior : List DbAlert) (h : storeWF prior = true)
    (qlat qlng r : ℝ) (a : DbAlert) (d : ℝ) :
    (a, d) ∈ alerts_nearby now fp file prior qlat qlng r ↔
      a ∈ (load_alerts_from_json now fp file prior).store ∧
        ∃ la lg : ℚ, a.lat = some (.jnum la) ∧ a.lng = some (.jnum lg) ∧
          haversine_km qlat qlng (la : ℝ) (lg : ℝ) ≤ r ∧
          d = pyRound2 (haversine_km qlat qlng (la : ℝ) (lg : ℝ)) :=
  nearby_filter_mem (load_alerts_from_json now fp file prior).store
    (load_storeWF now fp file prior h) qlat qlng r a d

/-- Witness for C7: a store holding one alert at the query point; the
file is absent, so the route keeps the prior store and returns the alert
at distance 0. -/
theorem nearby_membership_witness :
    ((⟨"INCOIS", "info", "t", "m", 0, some (.jnum 13), some (.jnum 80)⟩ : DbAlert),
      pyRound2 (haversine_km ((13 : ℚ) : ℝ) ((80 : ℚ) : ℝ) ((13 : ℚ) : ℝ)
        ((80 : ℚ) : ℝ))) ∈
      alerts_nearby 0 "alerts.json" none
        [⟨"INCOIS", "info", "t", "m", 0, some (.jnum 13), some (.jnum 80)⟩]
        ((13 : ℚ) : ℝ) ((80 : ℚ) : ℝ) 500 := by
  refine (nearby_membership 0 "alerts.json" none
      [⟨"INCOIS", "info", "t", "m", 0, some (.jnum 13), some (.jnum 80)⟩]
      (by decide) ((13 : ℚ) : ℝ) ((80 : ℚ) : ℝ) 500 _ _).mpr ?_
  refine ⟨List.mem_singleton_self _, 13, 80, rfl, rfl, ?_, rfl⟩
  rw [haversine_self]
  norm_num

/-- C8.  Proximity filtering is monotonic in the radius: for a fixed
query point and fixed store contents, every row returned for radius `r₁`
is also returned for any radius `r₂ ≥ r₁`. -/
theorem nearby_radius_mono (alerts : List DbAlert) (qlat qlng r₁ r₂ : ℝ)
    (h : r₁ ≤ r₂) :
    ∀ row ∈ alerts_nearby_filter alerts qlat qlng r₁,
      row ∈ alerts_nearby_filter alerts qlat qlng r₂ := by
  intro row hrow
  rw [alerts_nearby_filter, List.mem_filterMap] at hrow ⊢
  obtain ⟨b, hb, hf⟩ := hrow
  refine ⟨b, hb, ?_⟩
  cases hd : alertDist qlat qlng b with
  | none => simp [hd] at hf
  | some dist =>
      simp only [hd] at hf ⊢
      by_cases hle : dist ≤ r₁
      · rw [if_pos hle] at hf
        rw [if_pos (le_trans hle h)]
        exact hf
      · rw [if_neg hle] at hf; cases hf

theorem nearby_self_mem (a : DbAlert) (la lg : ℚ) (r : ℝ)
    (h1 : a.lat = some (.jnum la)) (h2 : a.lng = some (.jnum lg))
    (h3 : haversine_km (la : ℝ) (lg : ℝ) (la : ℝ) (lg : ℝ) ≤ r) :
    (a, pyRound2 (haversine_km (la : ℝ) (lg : ℝ) (la : ℝ) (lg : ℝ))) ∈
      alerts_nearby_filter [a] (la : ℝ) (lg : ℝ) r := by
  rw [alerts_nearby_filter, List.mem_filterMap]
  refine ⟨a, List.mem_singleton_self a, ?_⟩
  unfold alertDist
  rw [h1, h2]
  simp only [numericVal?]
  rw [if_pos h3]

/-- Witness for C8: the alert at the query point is within radius 500 and
therefore also within radius 600. -/
theorem nearby_radius_mono_witness :
    ((⟨"INCOIS", "info", "t", "m", 0, some (.jnum 13), some (.jnum 80)⟩ : DbAlert),
      pyRound2 (haversine_km ((13 : ℚ) : ℝ) ((80 : ℚ) : ℝ) ((13 : ℚ) : ℝ)
        ((80 : ℚ) : ℝ))) ∈
      alerts_nearby_filter
        [⟨"INCOIS", "info", "t", "m", 0, some (.jnum 13), some (.jnum 80)⟩]
        ((13 : ℚ) : ℝ) ((80 : ℚ) : ℝ) 600 :=
  nearby_radius_mono _ ((13 : ℚ) : ℝ) ((80 : ℚ) : ℝ) 500 600 (by norm_num) _
    (nearby_self_mem _ 13 80 500 rfl rfl (by rw [haversine_self]; norm_num))
